import Mathlib

/-!
Verification development for the university-scraper repository
(fix_lse_scraper.py, university_scraper.py, run_scraper.py).

The Python source is shallowly embedded below: pure string heuristics become
Lean functions on String / List Char, the SQLite-backed store becomes explicit
state passing over association lists (INSERT OR REPLACE is modelled as
remove-then-append on the primary key), and page fetches / rendered pages are
passed in as explicit data so the extraction pipelines are total functions of
their page inputs.  The sub-second clock component used in generated course
codes is passed as an explicit natural-number parameter.
-/

set_option autoImplicit false

namespace Scraper

/-! ## Python-style string primitives

These model the exact Python string operations the scrapers use:
substring containment, upper-casing, whitespace normalization,
and prefix tests.  They are written over List Char so that all
recursion is structural and evaluation by the kernel is cheap. -/

/-- Auxiliary membership test: does the pattern occur as a contiguous
run inside the character list (Python substring containment)? -/
def strInAux (n : List Char) : List Char → Bool
  | [] => n.isEmpty
  | c :: t => n.isPrefixOf (c :: t) || strInAux n t

/-- Python expression needle in hay on strings. -/
def strIn (needle hay : String) : Bool :=
  strInAux needle.data hay.data

/-- Python str.upper, restricted to the character-wise uppercase map. -/
def pyUpper (s : String) : String :=
  String.mk (s.data.map Char.toUpper)

/-- Python pre test: hay.startswith(pre). -/
def pyStartsWith (pre s : String) : Bool :=
  pre.data.isPrefixOf s.data

/-- Splits a character list on whitespace runs, dropping empty pieces,
as Python str.split() with no argument does.  The accumulator holds the
current word reversed. -/
def wordsAux : List Char → List Char → List (List Char)
  | [], acc => if acc.isEmpty then [] else [acc.reverse]
  | c :: rest, acc =>
      if c.isWhitespace then
        if acc.isEmpty then wordsAux rest [] else acc.reverse :: wordsAux rest []
      else wordsAux rest (c :: acc)

/-- UniversityScraper.clean_text: join the whitespace-separated words of
the text with single spaces (Python: ' '.join(text.strip().split())). -/
def clean_text (s : String) : String :=
  String.mk (List.intercalate [' '] (wordsAux s.data []))

/-- Python str.isupper: at least one alphabetic character and no
lowercase alphabetic character. -/
def pyIsUpper (s : String) : Bool :=
  s.data.any (fun c => c.isAlpha) && s.data.all (fun c => !c.isLower)

/-- Modelled from the library function urllib.parse.urljoin, specialised
to the way this repository calls it: the base is always an absolute
host-only URL without a trailing slash ("https://www.lse.ac.uk" or
"https://www.unibo.it"), and the second argument is either empty, an
absolute http(s) URL, or a path. -/
def urljoin (base url : String) : String :=
  if url.data.isEmpty then base
  else if pyStartsWith "http" url then url
  else if pyStartsWith "/" url then base ++ url
  else base ++ "/" ++ url

/-! ## Data model

Course and University records mirror the dictionaries built by the
scrapers and the columns explicitly inserted by DatabaseManager
(the last_updated timestamp column, which is filled by a SQL DEFAULT,
is not part of the inserted data and is not modelled). -/

structure Course where
  degree_course_code : String
  degree_course_name : String
  degree_course_language : String
  degree_course_period_years : Nat
  degree_course_type : String
  programme_access : String
  academic_year : String
  course_area : String
  remote_mode : String
  tuition_fees : String
  website_university : String
  website_course : String
  university_id : String
deriving DecidableEq

structure University where
  university_id : String
  university_name : String
  university_city : String
  university_region : String
  university_website : String
  university_email : String
  university_phone : String
  university_ranking_national : Nat
  university_ranking_world : Nat
deriving DecidableEq

/-- A default course record, used only to read fields out of an
Option Course in closed statements. -/
def defaultCourse : Course :=
  { degree_course_code := "", degree_course_name := "", degree_course_language := ""
  , degree_course_period_years := 0, degree_course_type := "", programme_access := ""
  , academic_year := "", course_area := "", remote_mode := "", tuition_fees := ""
  , website_university := "", website_course := "", university_id := "" }

/-! ## LSE scraper (the enhanced version installed by fix_lse_scraper.py) -/

def lse_base_url : String := "https://www.lse.ac.uk"

/-- The fixed keyword table of LSEScraper._determine_area, in the
insertion order of the Python dict literal. -/
def lse_areas : List (String × List String) :=
  [ ("Economics", ["Economics", "Econometrics", "Economic"])
  , ("Finance", ["Finance", "Accounting", "Actuarial"])
  , ("Politics", ["Politics", "Government", "International Relations"])
  , ("Social Sciences", ["Sociology", "Anthropology", "Social"])
  , ("Management", ["Management", "Business"])
  , ("Data Science", ["Data", "Statistics"])
  , ("Law", ["Law", "Legal"]) ]

/-- One table entry matches when some keyword, upper-cased, occurs in the
upper-cased course name. -/
def areaMatches (entry : String × List String) (courseUpper : String) : Bool :=
  entry.2.any (fun k => strIn (pyUpper k) courseUpper)

/-- The scan loop shared by both _determine_area methods: return the
first area of the table one of whose keywords occurs (case-insensitively)
in the name, or "Other" when none does. -/
def determineAreaGo : List (String × List String) → String → String
  | [], _ => "Other"
  | entry :: rest, courseUpper =>
      if areaMatches entry courseUpper then entry.1 else determineAreaGo rest courseUpper

/-- LSEScraper._determine_area. -/
def LSEScraper.determine_area (course_name : String) : String :=
  determineAreaGo lse_areas (pyUpper course_name)

/-- The degree-level and duration decision chain of
LSEScraper._create_course_from_text, applied to the cleaned name and the
programme-type tag: the graduate tag or a taught-master abbreviation
gives a one-year master, then LLM gives a one-year master, then PhD a
four-year doctorate, and otherwise a three-year bachelor. -/
def lseClassify (t prog_type : String) : String × Nat :=
  if prog_type == "graduate" || ["MSc", "MA", "MRes", "MPhil"].any (fun x => strIn x t)
  then ("Master's Degree", 1)
  else if strIn "LLM" t then ("Master's Degree", 1)
  else if strIn "PhD" t then ("Doctoral Degree", 4)
  else ("Bachelor's Degree", 3)

/-- The website_course value of LSEScraper._create_course_from_text:
the link made absolute when it does not already start with http, with
the base URL as default for an empty link (Python: link or
self.base_url). -/
def lseCourseLink (link : String) : String :=
  if (if !link.data.isEmpty && !pyStartsWith "http" link
      then urljoin lse_base_url link else link).data.isEmpty
  then lse_base_url
  else (if !link.data.isEmpty && !pyStartsWith "http" link
        then urljoin lse_base_url link else link)

/-- LSEScraper._create_course_from_text from fix_lse_scraper.py.
The micro argument stands for datetime.now().microsecond, read at
creation time and used only in the generated course code. -/
def LSEScraper.create_course_from_text (text link prog_type : String) (micro : Nat) :
    Option Course :=
  if text.data.isEmpty then none
  else
    some
      { degree_course_code :=
          "LSE_" ++ String.mk ((((clean_text text).data.take 4).map Char.toUpper).filter
            (fun c => c != ' ')) ++ "_" ++ toString micro
      , degree_course_name := clean_text text
      , degree_course_language := "English"
      , degree_course_period_years := (lseClassify (clean_text text) prog_type).2
      , degree_course_type := (lseClassify (clean_text text) prog_type).1
      , programme_access := "Competitive selection"
      , academic_year := "2025/2026"
      , course_area := LSEScraper.determine_area (clean_text text)
      , remote_mode := "In-person"
      , tuition_fees := "£9,250 (UK), £26,328 (International)"
      , website_university := lse_base_url
      , website_course := lseCourseLink link
      , university_id := "LSE" }

/-- The hardcoded fallback catalogue of LSEScraper._fallback_extraction:
known programme names paired with their programme-type tags. -/
def known_programmes : List (String × String) :=
  [ ("BSc Economics", "undergraduate")
  , ("BSc Finance", "undergraduate")
  , ("BSc Accounting and Finance", "undergraduate")
  , ("BSc Management", "undergraduate")
  , ("BSc International Relations", "undergraduate")
  , ("BSc Government", "undergraduate")
  , ("BSc Social Policy", "undergraduate")
  , ("BSc Sociology", "undergraduate")
  , ("BSc Geography and Economics", "undergraduate")
  , ("BSc Mathematics and Economics", "undergraduate")
  , ("BSc Econometrics and Mathematical Economics", "undergraduate")
  , ("BSc Data Science", "undergraduate")
  , ("BA History", "undergraduate")
  , ("BA Anthropology and Law", "undergraduate")
  , ("LLB Laws", "undergraduate")
  , ("MSc Economics", "graduate")
  , ("MSc Finance", "graduate")
  , ("MSc Accounting and Finance", "graduate")
  , ("MSc Management and Strategy", "graduate")
  , ("MSc Data Science", "graduate")
  , ("MSc International Relations", "graduate")
  , ("MSc Public Policy", "graduate")
  , ("MSc Development Economics", "graduate")
  , ("MSc Risk and Finance", "graduate")
  , ("MSc Marketing", "graduate") ]

/-- LSEScraper._fallback_extraction: pass every known programme through
the course constructor, keeping the records it produces. -/
def LSEScraper.fallback_extraction (micro : Nat) : List Course :=
  known_programmes.filterMap (fun p => LSEScraper.create_course_from_text p.1 "" p.2 micro)

/-- LSEScraper._is_valid_course_name. -/
def LSEScraper.is_valid_course_name (text : String) : Bool :=
  if text.data.isEmpty || text.length < 5 || text.length > 150 then false
  else
    let indicators := ["BSc", "BA", "MSc", "MA", "LLB", "LLM", "PhD", "MPhil", "MRes"]
    let subjects := ["Economics", "Finance", "Management", "Politics", "Law", "Sociology"]
    let hasIndicator := indicators.any (fun i => strIn i text)
    let hasSubject := subjects.any (fun s => strIn s text)
    let excl := ["Cookie", "Menu", "Search", "Apply", "More", "Click here", "Read more"]
    let hasExclude := excl.any (fun e => strIn e text)
    (hasIndicator || hasSubject) && !hasExclude && !pyIsUpper text

/-- A parsed page element as seen by LSEScraper._extract_course_from_element:
the text of its first h3/h2/h4 child (when present) and its anchor children
as (text, optional href) pairs, in document order. -/
structure Element where
  h3Text : Option String
  h2Text : Option String
  h4Text : Option String
  anchors : List (String × Option String)
deriving DecidableEq

/-- element.find(tag) for the four tags the extractor tries; for the
tag a it is the first anchor child regardless of href. -/
def elementFindTag (e : Element) (tag : String) : Option String :=
  if tag == "h3" then e.h3Text
  else if tag == "h2" then e.h2Text
  else if tag == "h4" then e.h4Text
  else e.anchors.head?.map Prod.fst

/-- The name-search loop of _extract_course_from_element: try the tags in
order, clean each candidate text, keep the first that validates. -/
def extractNameGo (e : Element) : List String → Option String
  | [] => none
  | tag :: rest =>
      match elementFindTag e tag with
      | none => extractNameGo e rest
      | some txt =>
          let n := clean_text txt
          if LSEScraper.is_valid_course_name n then some n else extractNameGo e rest

/-- LSEScraper._extract_course_from_element: find a valid name via the
heading tags h3, h2, h4, a, then the first href-bearing anchor for the
link, and build the course record. -/
def LSEScraper.extract_course_from_element (e : Element) (micro : Nat) : Option Course :=
  match extractNameGo e ["h3", "h2", "h4", "a"] with
  | none => none
  | some n =>
      let link := match e.anchors.find? (fun a => a.2.isSome) with
                  | some a => a.2.getD ""
                  | none => ""
      LSEScraper.create_course_from_text n link "general" micro

/-- A hyperlink element of a rendered page: its visible text and href. -/
structure PageLink where
  text : String
  href : String
deriving DecidableEq

/-- The per-link body of the undergraduate/graduate branch of
LSEScraper.get_courses: keep the link when its href contains one of the
programme-path substrings, its cleaned text is longer than 10 characters
and contains a degree indicator, and then build the record. -/
def processProgrammeLink (tag : String) (micro : Nat) (l : PageLink) : Option Course :=
  let txt := clean_text l.text
  if (strIn "/offer-holder/" l.href || strIn "/degree-programmes/" l.href)
      && decide (10 < txt.length) then
    if ["BSc", "BA", "MSc", "MA", "LLB"].any (fun i => strIn i txt) then
      LSEScraper.create_course_from_text txt l.href tag micro
    else none
  else none

/-- The selector loop of the search-page branch: for each selector take
the first twenty matched elements, extract courses from them, and stop
as soon as the accumulated course list is non-empty. -/
def selectorScan (micro : Nat) : List Course → List (List Element) → List Course
  | acc, [] => acc
  | acc, elems :: rest =>
      let acc2 := acc ++ (elems.take 20).filterMap
        (fun e => LSEScraper.extract_course_from_element e micro)
      if acc2.isEmpty then selectorScan micro acc2 rest else acc2

/-- The rendered pages the three candidate LSE URLs yield during one run:
for the undergraduate and graduate listing pages all hyperlink elements,
for the course-search page the element lists matched by each of its CSS
selectors.  A missing value models a fetch or rendering failure for that
URL (caught and logged by the scraper, which then moves on). -/
structure LSEFetch where
  ugPage : Option (List PageLink)
  gradPage : Option (List PageLink)
  searchPage : Option (List (List Element))
deriving DecidableEq

/-- The live-extraction part of LSEScraper.get_courses: scan the three
candidate URLs in order, stopping early once at least five course
records have been collected. -/
def lseLiveExtraction (f : LSEFetch) (micro : Nat) : List Course :=
  let c1 := match f.ugPage with
            | none => []
            | some ls => ls.filterMap (processProgrammeLink "undergraduate" micro)
  if 5 ≤ c1.length then c1
  else
    let c2 := c1 ++ (match f.gradPage with
                     | none => []
                     | some ls => ls.filterMap (processProgrammeLink "graduate" micro))
    if 5 ≤ c2.length then c2
    else
      match f.searchPage with
      | none => c2
      | some sels => selectorScan micro c2 sels

/-- The duplicate-removal pass of LSEScraper.get_courses: keep the first
course carrying each non-empty name, tracking seen names in a set
(modelled as the list of names seen so far). -/
def dedupCourses : List Course → List String → List Course
  | [], _ => []
  | c :: rest, seen =>
      if !c.degree_course_name.data.isEmpty && !seen.contains c.degree_course_name
      then c :: dedupCourses rest (c.degree_course_name :: seen)
      else dedupCourses rest seen

/-- LSEScraper.get_courses (enhanced version): live extraction over the
candidate URLs, fallback to the hardcoded catalogue when it produced
nothing, then deduplication by name and a cap of thirty records. -/
def LSEScraper.get_courses (f : LSEFetch) (micro : Nat) : List Course :=
  (dedupCourses
    (if (lseLiveExtraction f micro).isEmpty then LSEScraper.fallback_extraction micro
     else lseLiveExtraction f micro) []).take 30

/-- LSEScraper.get_university_info: a static hand-authored record. -/
def LSEScraper.get_university_info : University :=
  { university_id := "LSE"
  , university_name := "London School of Economics and Political Science"
  , university_city := "London"
  , university_region := "Greater London"
  , university_website := lse_base_url
  , university_email := "admissions@lse.ac.uk"
  , university_phone := "+44 (0)20 7405 7686"
  , university_ranking_national := 1
  , university_ranking_world := 50 }

/-! ## Bologna scraper -/

def bologna_base_url : String := "https://www.unibo.it"

/-- The fixed keyword table of BolognaScraper._determine_area, in the
insertion order of the Python dict literal. -/
def bologna_areas : List (String × List String) :=
  [ ("Engineering", ["Engineering", "Computer", "Electronic", "Mechanical"])
  , ("Medicine", ["Medicine", "Medical", "Health", "Pharmaceutical"])
  , ("Economics", ["Economics", "Business", "Finance", "Management"])
  , ("Sciences", ["Physics", "Chemistry", "Biology", "Mathematics"])
  , ("Humanities", ["History", "Philosophy", "Literature", "Languages"])
  , ("Law", ["Law", "Legal", "Juridical"]) ]

/-- BolognaScraper._determine_area. -/
def BolognaScraper.determine_area (course_name : String) : String :=
  determineAreaGo bologna_areas (pyUpper course_name)

/-- A course-listing item on a Bologna page: either a bare anchor
(text, href), or a container element whose first anchor child, when
present, carries the name and link. -/
inductive BItem where
  | anchor (text href : String)
  | container (firstLink : Option (String × String))
deriving DecidableEq

/-- BolognaScraper._parse_course_item: read name and URL from the item
(no record when a container has no anchor), then classify by the cycle
tag: first_cycle is a three-year bachelor, anything else a two-year
master. -/
def BolognaScraper.parse_course_item (degree_type : String) (micro : Nat) (it : BItem) :
    Option Course :=
  let nameUrl : Option (String × String) :=
    match it with
    | .anchor t h => some (clean_text t, urljoin bologna_base_url h)
    | .container l => l.map (fun p => (clean_text p.1, urljoin bologna_base_url p.2))
  match nameUrl with
  | none => none
  | some (name, url) =>
      let code := "UNIBO_" ++ String.mk ((name.data.take 3).map Char.toUpper)
                  ++ "_" ++ toString micro
      let tyYears : String × Nat :=
        if degree_type == "first_cycle" then ("Bachelor's Degree", 3)
        else ("Master's Degree", 2)
      some
        { degree_course_code := code
        , degree_course_name := name
        , degree_course_language := "English"
        , degree_course_period_years := tyYears.2
        , degree_course_type := tyYears.1
        , programme_access := "Open access"
        , academic_year := "2025/2026"
        , course_area := BolognaScraper.determine_area name
        , remote_mode := "In-person"
        , tuition_fees := "€2,925 - €3,295"
        , website_university := bologna_base_url
        , website_course := url
        , university_id := "UNIBO" }

/-- BolognaScraper.get_courses: for each of the two cycle pages (a
missing value models a failed fetch, which the loop skips), parse the
first ten listed items and append every record obtained.  No
deduplication is performed. -/
def BolognaScraper.get_courses (firstCycle secondCycle : Option (List BItem)) (micro : Nat) :
    List Course :=
  (match firstCycle with
   | none => []
   | some items => (items.take 10).filterMap (BolognaScraper.parse_course_item "first_cycle" micro))
  ++
  (match secondCycle with
   | none => []
   | some items => (items.take 10).filterMap (BolognaScraper.parse_course_item "second_cycle" micro))

/-- BolognaScraper.get_university_info: a static hand-authored record. -/
def BolognaScraper.get_university_info : University :=
  { university_id := "UNIBO"
  , university_name := "Università di Bologna"
  , university_city := "Bologna"
  , university_region := "Emilia-Romagna"
  , university_website := bologna_base_url
  , university_email := "internationaldesk@unibo.it"
  , university_phone := "+39 051 2099111"
  , university_ranking_national := 1
  , university_ranking_world := 133 }

/-- Helper used only in closed statements: the list of course names of a
course list. -/
def courseNames (cs : List Course) : List String :=
  cs.map (fun c => c.degree_course_name)

/-! ## Record store (DatabaseManager)

SQLite tables are modelled as lists of rows; INSERT OR REPLACE on a
primary key is modelled as deleting any row with that key and appending
the new row.  The learning_modules and admission_requirements tables are
declared by init_database but never written by the scrapers. -/

structure LearningModule where
  learning_code : String
  learning_ssd : String
  learning_cfu : Nat
  learning_hour : Nat
  learning_language : String
  learning_ref : String
  degree_course_code : String
  university_id : String
  semester : String
deriving DecidableEq

structure AdmissionRequirement where
  requirement_id : String
  requirement_type : String
  requirement_description : String
  is_mandatory : Bool
  degree_course_code : String
deriving DecidableEq

@[ext]
structure Store where
  universities : List University
  courses : List Course
  modules : List LearningModule
  requirements : List AdmissionRequirement
deriving DecidableEq

/-- The store produced by DatabaseManager.init_database on a fresh file:
four empty tables. -/
def emptyStore : Store :=
  { universities := [], courses := [], modules := [], requirements := [] }

/-- DatabaseManager.save_university: INSERT OR REPLACE keyed on
university_id. -/
def DatabaseManager.save_university (u : University) (s : Store) : Store :=
  { s with universities :=
      s.universities.filter (fun v => v.university_id != u.university_id) ++ [u] }

/-- One INSERT OR REPLACE into degree_courses, keyed on
degree_course_code. -/
def upsertCourse (c : Course) (cs : List Course) : List Course :=
  cs.filter (fun d => d.degree_course_code != c.degree_course_code) ++ [c]

/-- DatabaseManager.save_courses: one INSERT OR REPLACE per course, in
list order, committed together (the sqlite3 connection context rolls the
batch back on an exception, so the call is all-or-nothing). -/
def DatabaseManager.save_courses (cs : List Course) (s : Store) : Store :=
  { s with courses := cs.foldl (fun acc c => upsertCourse c acc) s.courses }

/-- The structured-record document written by
DatabaseManager.export_to_json.  Serialization to a file and reparsing
are performed by the json library and assumed faithful, so the document
is modelled directly as its field contents. -/
structure ExportDoc where
  export_date : String
  universities : List University
  courses : List Course
  modules : List LearningModule
  requirements : List AdmissionRequirement
deriving DecidableEq

/-- DatabaseManager.export_to_json: dump all four tables.  The
export_date argument stands for datetime.now().isoformat(). -/
def DatabaseManager.export_to_json (export_date : String) (s : Store) : ExportDoc :=
  { export_date := export_date
  , universities := s.universities
  , courses := s.courses
  , modules := s.modules
  , requirements := s.requirements }

/-- Python-dict lookup for the grouped statistics: dict(pairs) keeps the
last value bound to a key. -/
def dictGet (l : List (String × Nat)) (k : String) : Option Nat :=
  (l.filter (fun p => p.1 == k)).getLast?.map Prod.snd

structure Stats where
  universities : Nat
  courses : Nat
  by_university : List (String × Nat)
  by_area : List (String × Nat)
deriving DecidableEq

/-- DatabaseManager.get_statistics: total row counts, and the LEFT JOIN
grouped by university (one pair per universities row, keyed by the
display name, counting the courses whose university_id matches), and the
per-area grouping over degree_courses. -/
def DatabaseManager.get_statistics (s : Store) : Stats :=
  { universities := s.universities.length
  , courses := s.courses.length
  , by_university := s.universities.map (fun u =>
      (u.university_name,
       (s.courses.filter (fun c => c.university_id == u.university_id)).length))
  , by_area := ((s.courses.map (fun c => c.course_area)).dedup).map (fun a =>
      (a, (s.courses.filter (fun c => c.course_area == a)).length)) }

/-! ## Page fetcher (UniversityScraper.fetch_page, direct branch) -/

/-- What the HTTP client produces for one GET: either a raised network
error (timeout, DNS failure, connection error) or a final response with
a status code and body. -/
inductive FetchResult where
  | netError
  | response (status : Nat) (body : String)
deriving DecidableEq

/-- UniversityScraper.fetch_page in its direct (non-Selenium) branch:
session.get either raises (network error) or returns a response;
raise_for_status raises exactly when the status code is in the 4xx/5xx
range; every exception is caught and turns into the failure signal, and
otherwise the body is parsed and returned.  The parsed document is
modelled as the markup it was parsed from.  The function consumes a
single fetch result: no retry of the URL happens within the call. -/
def UniversityScraper.fetch_page (r : FetchResult) : Option String :=
  match r with
  | .netError => none
  | .response status body =>
      if 400 ≤ status ∧ status < 600 then none else some body

/-! ## Orchestrator (main in university_scraper.py)

For each configured institution the orchestrator runs, in order:
setup_selenium, get_university_info, save_university, get_courses, and
save_courses when the course list is non-empty; any exception aborts the
institution inside a try/except and the loop continues.  One
institution's run is summarized by where (if anywhere) it raised. -/

inductive RunOutcome where
  /-- An exception before save_university completed (setup_selenium,
  get_university_info, or the save itself, rolled back). -/
  | raiseBeforeSave
  /-- save_university succeeded with this record, then get_courses or
  save_courses raised (a failing save_courses batch is rolled back). -/
  | raiseAfterUniSave (info : University)
  /-- The full run succeeded. -/
  | success (info : University) (courses : List Course)
deriving DecidableEq

/-- The effect of one institution's iteration of the orchestrator loop
on the store. -/
def runInstitution (s : Store) : RunOutcome → Store
  | .raiseBeforeSave => s
  | .raiseAfterUniSave info => DatabaseManager.save_university info s
  | .success info cs =>
      if cs.isEmpty then DatabaseManager.save_university info s
      else DatabaseManager.save_courses cs (DatabaseManager.save_university info s)

/-- The orchestrator loop of main: process the configured institutions
in order, each inside its own try/except. -/
def orchestrate (s : Store) : List RunOutcome → Store
  | [] => s
  | o :: rest => orchestrate (runInstitution s o) rest

/-! ## Auxiliary definitions used by the statements below -/

/-- The primary-key column of a course list. -/
def courseKeys (cs : List Course) : List String :=
  cs.map (fun c => c.degree_course_code)

/-- The rows of a course table carrying a given primary key. -/
def rowsWithCode (k : String) (cs : List Course) : List Course :=
  cs.filter (fun d => d.degree_course_code == k)

/-- The rows of the universities table carrying a given primary key. -/
def rowsWithUniId (k : String) (us : List University) : List University :=
  us.filter (fun v => v.university_id == k)

/-- All entries of the list carry pairwise distinct course names. -/
def namesDistinct (cs : List Course) : Prop :=
  cs.Pairwise (fun a b => a.degree_course_name ≠ b.degree_course_name)

/-- A stale institution row: the LSE record as an earlier run (or an
earlier revision of the scraper) could have saved it, differing from the
current static record in its display name. -/
def staleLSE : University :=
  { LSEScraper.get_university_info with university_name := "LSE (stale row)" }

/-- A store holding only the stale LSE row. -/
def staleStore : Store :=
  { universities := [staleLSE], courses := [], modules := [], requirements := [] }

/-- Sample records for concrete instantiations. -/
def u1ex : University :=
  { LSEScraper.get_university_info with university_id := "U1", university_name := "Uni One" }

def u2ex : University :=
  { LSEScraper.get_university_info with university_id := "U2", university_name := "Uni Two" }

def c1ex : Course :=
  { defaultCourse with
      degree_course_code := "U1_A_1"
      degree_course_name := "BSc Alpha"
      university_id := "U1" }

def c2ex : Course :=
  { defaultCourse with
      degree_course_code := "U1_B_1"
      degree_course_name := "BSc Beta"
      university_id := "U1" }

def c3ex : Course :=
  { defaultCourse with
      degree_course_code := "U1_C_1"
      degree_course_name := "MSc Gamma"
      university_id := "U1" }

/-- The store of the statistics scenario: two institutions saved, then
three programmes all referencing the first. -/
def stExample : Store :=
  DatabaseManager.save_courses [c1ex, c2ex, c3ex]
    (DatabaseManager.save_university u2ex (DatabaseManager.save_university u1ex emptyStore))

/-! ## Helper lemmas -/

theorem string_eq_empty_of_data {s : String} (h : s.data = []) : s = "" := by
  cases s with
  | mk d => cases h; rfl

theorem data_isEmpty_iff (s : String) : s.data.isEmpty = true ↔ s = "" := by
  constructor
  · intro h
    exact string_eq_empty_of_data (List.isEmpty_iff.mp h)
  · intro h
    subst h
    rfl

theorem if_empty_default_ne (s : String) :
    (if s.data.isEmpty = true then lse_base_url else s) ≠ "" := by
  split
  · decide
  · next h =>
    intro he
    exact h (by rw [he]; rfl)

theorem lseCourseLink_ne_empty (link : String) : lseCourseLink link ≠ "" := by
  unfold lseCourseLink
  exact if_empty_default_ne _

/-- Inversion of the course constructor: the fields of a record it
produces. -/
theorem create_course_fields (text link prog_type : String) (micro : Nat) (c : Course)
    (h : LSEScraper.create_course_from_text text link prog_type micro = some c) :
    c.degree_course_type = (lseClassify (clean_text text) prog_type).1 ∧
    c.degree_course_period_years = (lseClassify (clean_text text) prog_type).2 ∧
    c.university_id = "LSE" ∧
    c.website_course = lseCourseLink link := by
  unfold LSEScraper.create_course_from_text at h
  split at h
  · exact absurd h (by simp)
  · rw [Option.some_inj] at h
    subst h
    exact ⟨rfl, rfl, rfl, rfl⟩

theorem lseClassify_msc (t pt : String) (h : strIn "MSc" t = true) :
    lseClassify t pt = ("Master's Degree", 1) := by
  unfold lseClassify
  rw [if_pos]
  simp [h]

theorem lseClassify_graduate (t : String) : lseClassify t "graduate" = ("Master's Degree", 1) := by
  simp [lseClassify]

theorem lseClassify_phd (t pt : String) (hpt : pt ≠ "graduate")
    (hM : (["MSc", "MA", "MRes", "MPhil", "LLM"].all (fun x => !strIn x t)) = true)
    (hP : strIn "PhD" t = true) :
    lseClassify t pt = ("Doctoral Degree", 4) := by
  simp only [List.all_cons, List.all_nil, Bool.and_eq_true, Bool.not_eq_true'] at hM
  obtain ⟨h1, h2, h3, h4, h5, -⟩ := hM
  simp [lseClassify, h1, h2, h3, h4, h5, hP, hpt]

theorem lseClassify_default (t pt : String) (hpt : pt ≠ "graduate")
    (hM : (["MSc", "MA", "MRes", "MPhil", "LLM", "PhD"].all (fun x => !strIn x t)) = true) :
    lseClassify t pt = ("Bachelor's Degree", 3) := by
  simp only [List.all_cons, List.all_nil, Bool.and_eq_true, Bool.not_eq_true'] at hM
  obtain ⟨h1, h2, h3, h4, h5, h6, -⟩ := hM
  simp [lseClassify, h1, h2, h3, h4, h5, h6, hpt]

theorem lseClassify_cases (t pt : String) :
    lseClassify t pt = ("Master's Degree", 1) ∨ lseClassify t pt = ("Doctoral Degree", 4) ∨
    lseClassify t pt = ("Bachelor's Degree", 3) := by
  unfold lseClassify
  split
  · exact Or.inl rfl
  · split
    · exact Or.inl rfl
    · split
      · exact Or.inr (Or.inl rfl)
      · exact Or.inr (Or.inr rfl)

/-! ## Claim theorems -/

/-- C7: for every store state, the structured-record document produced
by export_to_json has a universities list and a courses list whose
lengths equal the store's live institution and programme counts (as
reported by get_statistics) at export time. -/
theorem c7_export_round_trip (d : String) (s : Store) :
    (DatabaseManager.export_to_json d s).universities.length
      = (DatabaseManager.get_statistics s).universities ∧
    (DatabaseManager.export_to_json d s).courses.length
      = (DatabaseManager.get_statistics s).courses :=
  ⟨rfl, rfl⟩

/-- C8 (amended): fetch_page returns the failure signal exactly for a
network error or a 4xx/5xx response status; any response below the
4xx/5xx range — the 2xx range but also the 1xx/3xx ranges — is returned
as a parsed document.  The function is total (no exception propagates)
and consumes a single fetch result, so no retry of the URL happens
within the call. -/
theorem c8_fetch_failure_totality (r : FetchResult) :
    UniversityScraper.fetch_page r = none ↔
      (r = FetchResult.netError ∨
       ∃ st body, r = FetchResult.response st body ∧ 400 ≤ st ∧ st < 600) := by
  cases r with
  | netError => simp [UniversityScraper.fetch_page]
  | response st body =>
    simp only [UniversityScraper.fetch_page]
    constructor
    · intro h
      split at h
      · next hc => exact Or.inr ⟨st, body, rfl, hc.1, hc.2⟩
      · exact absurd h (by simp)
    · intro h
      rcases h with h | ⟨st2, body2, heq, h4, h6⟩
      · exact absurd h (by simp)
      · cases heq
        rw [if_pos ⟨h4, h6⟩]

/-- C8 witness: a 500 response yields the failure signal. -/
theorem c8_fetch_failure_totality_witness :
    UniversityScraper.fetch_page (FetchResult.response 500 "oops") = none :=
  (c8_fetch_failure_totality (FetchResult.response 500 "oops")).mpr
    (Or.inr ⟨500, "oops", rfl, by decide, by decide⟩)

/-- C8 counterexample: a 304 response is non-2xx, yet fetch_page returns
a parsed document for it rather than the failure signal, because
raise_for_status only raises for statuses of at least 400. -/
theorem c8_counterexample :
    UniversityScraper.fetch_page (FetchResult.response 304 "cached page") = some "cached page" ∧
    300 ≤ 304 := by
  exact ⟨rfl, by decide⟩

/-- C3 (amended): an institution whose scrape raises is caught by the
orchestrator, which continues with the remaining institutions, and the
failed institution's previously saved programmes are unchanged; but when
the failure happens after save_university (that is, in get_courses or
save_courses), the institution row has already been upserted with the
freshly fetched record.  A failure before that save leaves the store
fully unchanged. -/
theorem c3_error_atomicity (s : Store) (info : University) (rest : List RunOutcome) :
    orchestrate s (RunOutcome.raiseBeforeSave :: rest) = orchestrate s rest ∧
    orchestrate s (RunOutcome.raiseAfterUniSave info :: rest)
      = orchestrate (DatabaseManager.save_university info s) rest ∧
    (DatabaseManager.save_university info s).courses = s.courses :=
  ⟨rfl, rfl, rfl⟩

/-- C3 counterexample: with a stale LSE row in the store, a run whose
course scrape raises after save_university leaves the universities table
changed — the stale row has been overwritten — contradicting the claim
that the institution's data is left unchanged by the failed run. -/
theorem c3_counterexample :
    (orchestrate staleStore [RunOutcome.raiseAfterUniSave LSEScraper.get_university_info]).universities
      ≠ staleStore.universities := by
  decide

/-- C4: when live extraction over all candidate URLs produces zero
records, get_courses returns exactly the fallback catalogue — every
known programme passed through the same course constructor (and hence
the same degree-level and subject-area classification), 25 records with
pairwise distinct names, unaffected by the dedup-and-cap step. -/
theorem c4_fallback_activation (f : LSEFetch) (micro : Nat)
    (h : lseLiveExtraction f micro = []) :
    LSEScraper.get_courses f micro = LSEScraper.fallback_extraction micro ∧
    LSEScraper.fallback_extraction micro
      = known_programmes.filterMap
          (fun p => LSEScraper.create_course_from_text p.1 "" p.2 micro) ∧
    (LSEScraper.fallback_extraction micro).length = 25 := by
  refine ⟨?_, rfl, rfl⟩
  unfold LSEScraper.get_courses
  rw [h]
  rfl

/-- C4 witness: when all three candidate URLs fail, live extraction is
empty and get_courses returns the fallback catalogue. -/
theorem c4_fallback_activation_witness :
    lseLiveExtraction ⟨none, none, none⟩ 0 = [] ∧
    LSEScraper.get_courses ⟨none, none, none⟩ 0 = LSEScraper.fallback_extraction 0 :=
  ⟨rfl, (c4_fallback_activation ⟨none, none, none⟩ 0 rfl).1⟩

/-- C1 (amended): for every record the constructor produces, a
(normalized) name containing MSc always yields Master's Degree with
duration 1; so does every name when the programme-type tag is graduate,
regardless of the name.  The PhD rule and the bachelor default hold only
when the tag is not graduate and the name contains no master
abbreviation (MSc, MA, MRes, MPhil, or the LLM checked between them):
under those side conditions a name containing PhD yields Doctoral Degree
with duration 4, and a name containing none of the abbreviations yields
Bachelor's Degree with duration 3. -/
theorem c1_degree_classification (text link prog_type : String) (micro : Nat) (c : Course)
    (h : LSEScraper.create_course_from_text text link prog_type micro = some c) :
    (strIn "MSc" (clean_text text) = true →
       c.degree_course_type = "Master's Degree" ∧ c.degree_course_period_years = 1) ∧
    (prog_type = "graduate" →
       c.degree_course_type = "Master's Degree" ∧ c.degree_course_period_years = 1) ∧
    (prog_type ≠ "graduate" →
       (["MSc", "MA", "MRes", "MPhil", "LLM"].all (fun x => !strIn x (clean_text text))) = true →
       strIn "PhD" (clean_text text) = true →
       c.degree_course_type = "Doctoral Degree" ∧ c.degree_course_period_years = 4) ∧
    (prog_type ≠ "graduate" →
       (["MSc", "MA", "MRes", "MPhil", "LLM", "PhD"].all
          (fun x => !strIn x (clean_text text))) = true →
       c.degree_course_type = "Bachelor's Degree" ∧ c.degree_course_period_years = 3) := by
  obtain ⟨hty, hyr, -, -⟩ := create_course_fields text link prog_type micro c h
  refine ⟨fun hm => ?_, fun hg => ?_, fun hpt hM hP => ?_, fun hpt hM => ?_⟩
  · rw [hty, hyr, lseClassify_msc (clean_text text) prog_type hm]
    exact ⟨rfl, rfl⟩
  · subst hg
    rw [hty, hyr, lseClassify_graduate (clean_text text)]
    exact ⟨rfl, rfl⟩
  · rw [hty, hyr, lseClassify_phd (clean_text text) prog_type hpt hM hP]
    exact ⟨rfl, rfl⟩
  · rw [hty, hyr, lseClassify_default (clean_text text) prog_type hpt hM]
    exact ⟨rfl, rfl⟩

/-- C1 counterexample: the name PhD Economics passed with the graduate
programme-type tag — a tag the constructor is called with — produces a
Master's Degree record with duration 1, not the Doctoral Degree with
duration 4 the claim requires for every name containing PhD. -/
theorem c1_counterexample :
    strIn "PhD" (clean_text "PhD Economics") = true ∧
    ((LSEScraper.create_course_from_text "PhD Economics" "" "graduate" 0).getD
        defaultCourse).degree_course_type = "Master's Degree" ∧
    ((LSEScraper.create_course_from_text "PhD Economics" "" "graduate" 0).getD
        defaultCourse).degree_course_period_years = 1 := by
  decide

/-- C1 witness: with a non-graduate tag and no master abbreviation in
the name, PhD Economics is classified as a four-year doctorate. -/
theorem c1_degree_classification_witness :
    ((LSEScraper.create_course_from_text "PhD Economics" "" "prospectus" 0).getD
        defaultCourse).degree_course_type = "Doctoral Degree" ∧
    ((LSEScraper.create_course_from_text "PhD Economics" "" "prospectus" 0).getD
        defaultCourse).degree_course_period_years = 4 := by
  have h : LSEScraper.create_course_from_text "PhD Economics" "" "prospectus" 0
      = some ((LSEScraper.create_course_from_text "PhD Economics" "" "prospectus" 0).getD
          defaultCourse) := rfl
  exact (c1_degree_classification "PhD Economics" "" "prospectus" 0 _ h).2.2.1
    (by decide) (by decide) (by decide)

/-- C10: the constructor returns no record exactly for the empty input
text; every record it returns carries one of the three degree levels
with the duration fixed by the level (bachelor 3, master 1, doctorate
4), university_id LSE, and a non-empty website_course equal to the base
URL when no link was given. -/
theorem c10_record_well_formed (text link prog_type : String) (micro : Nat) :
    (text = "" → LSEScraper.create_course_from_text text link prog_type micro = none) ∧
    ((LSEScraper.create_course_from_text text link prog_type micro).isSome = true ↔ text ≠ "") ∧
    (∀ c, LSEScraper.create_course_from_text text link prog_type micro = some c →
       ((c.degree_course_type = "Bachelor's Degree" ∧ c.degree_course_period_years = 3) ∨
        (c.degree_course_type = "Master's Degree" ∧ c.degree_course_period_years = 1) ∨
        (c.degree_course_type = "Doctoral Degree" ∧ c.degree_course_period_years = 4)) ∧
       c.university_id = "LSE" ∧
       c.website_course ≠ "" ∧
       (link = "" → c.website_course = lse_base_url)) := by
  refine ⟨?_, ?_, ?_⟩
  · intro ht
    subst ht
    rfl
  · unfold LSEScraper.create_course_from_text
    split
    · next he =>
      simp only [Option.isSome_none, Bool.false_eq_true, false_iff, ne_eq, not_not]
      exact (data_isEmpty_iff text).mp he
    · next he =>
      simp only [Option.isSome_some, true_iff, ne_eq]
      intro hc
      exact he ((data_isEmpty_iff text).mpr hc)
  · intro c h
    obtain ⟨hty, hyr, hid, hwc⟩ := create_course_fields text link prog_type micro c h
    refine ⟨?_, hid, ?_, ?_⟩
    · rcases lseClassify_cases (clean_text text) prog_type with hcl | hcl | hcl
      · exact Or.inr (Or.inl ⟨by rw [hty, hcl], by rw [hyr, hcl]⟩)
      · exact Or.inr (Or.inr ⟨by rw [hty, hcl], by rw [hyr, hcl]⟩)
      · exact Or.inl ⟨by rw [hty, hcl], by rw [hyr, hcl]⟩
    · rw [hwc]
      exact lseCourseLink_ne_empty link
    · intro hl
      subst hl
      rw [hwc]
      rfl

/-- C10 witness: a concrete non-empty name with no link produces a
record with university_id LSE and the base URL as website_course. -/
theorem c10_record_well_formed_witness :
    (LSEScraper.create_course_from_text "BSc Management" "" "general" 0).isSome = true ∧
    ((LSEScraper.create_course_from_text "BSc Management" "" "general" 0).getD
        defaultCourse).university_id = "LSE" ∧
    ((LSEScraper.create_course_from_text "BSc Management" "" "general" 0).getD
        defaultCourse).website_course = lse_base_url := by
  have h : LSEScraper.create_course_from_text "BSc Management" "" "general" 0
      = some ((LSEScraper.create_course_from_text "BSc Management" "" "general" 0).getD
          defaultCourse) := rfl
  have h3 := (c10_record_well_formed "BSc Management" "" "general" 0).2.2 _ h
  exact ⟨(c10_record_well_formed "BSc Management" "" "general" 0).2.1.mpr (by decide),
    h3.2.1, h3.2.2.2 rfl⟩

theorem determineAreaGo_first_match (tbl : List (String × List String)) (up : String) :
    (∀ i (h : i < tbl.length),
        areaMatches (tbl.get ⟨i, h⟩) up = true →
        (∀ j (hj : j < i), areaMatches (tbl.get ⟨j, Nat.lt_trans hj h⟩) up = false) →
        determineAreaGo tbl up = (tbl.get ⟨i, h⟩).1) ∧
    ((∀ e ∈ tbl, areaMatches e up = false) → determineAreaGo tbl up = "Other") := by
  induction tbl with
  | nil =>
    exact ⟨fun i h => absurd h (Nat.not_lt_zero i), fun _ => rfl⟩
  | cons entry rest ih =>
    constructor
    · intro i h hm hearlier
      match i with
      | 0 =>
        unfold determineAreaGo
        rw [if_pos (show areaMatches entry up = true from hm)]
        rfl
      | Nat.succ k =>
        have h0 : areaMatches entry up = false := hearlier 0 (Nat.succ_pos k)
        unfold determineAreaGo
        rw [if_neg (by simp [h0])]
        exact ih.1 k (Nat.lt_of_succ_lt_succ h) hm
          (fun j hj => hearlier (j + 1) (Nat.succ_lt_succ hj))
    · intro hall
      unfold determineAreaGo
      rw [if_neg (by simp [hall entry (List.mem_cons_self entry rest)])]
      exact ih.2 (fun e he => hall e (List.mem_cons_of_mem entry he))

/-- C9: both _determine_area methods are first-match-wins scans of their
fixed keyword table: the result is the area of the first table entry (in
table order) with a case-insensitively matching keyword — regardless of
any later entry that also matches — and Other when no entry matches. -/
theorem c9_subject_area_first_match (name : String) :
    (∀ i (h : i < lse_areas.length),
        areaMatches (lse_areas.get ⟨i, h⟩) (pyUpper name) = true →
        (∀ j (hj : j < i),
            areaMatches (lse_areas.get ⟨j, Nat.lt_trans hj h⟩) (pyUpper name) = false) →
        LSEScraper.determine_area name = (lse_areas.get ⟨i, h⟩).1) ∧
    ((∀ e ∈ lse_areas, areaMatches e (pyUpper name) = false) →
        LSEScraper.determine_area name = "Other") ∧
    (∀ i (h : i < bologna_areas.length),
        areaMatches (bologna_areas.get ⟨i, h⟩) (pyUpper name) = true →
        (∀ j (hj : j < i),
            areaMatches (bologna_areas.get ⟨j, Nat.lt_trans hj h⟩) (pyUpper name) = false) →
        BolognaScraper.determine_area name = (bologna_areas.get ⟨i, h⟩).1) ∧
    ((∀ e ∈ bologna_areas, areaMatches e (pyUpper name) = false) →
        BolognaScraper.determine_area name = "Other") :=
  ⟨(determineAreaGo_first_match lse_areas (pyUpper name)).1,
   (determineAreaGo_first_match lse_areas (pyUpper name)).2,
   (determineAreaGo_first_match bologna_areas (pyUpper name)).1,
   (determineAreaGo_first_match bologna_areas (pyUpper name)).2⟩

/-- C9 witness: Business Economics matches both the Economics entry
(index 0) and the Management entry (whose keyword Business matches), and
the earlier table entry wins. -/
theorem c9_subject_area_first_match_witness :
    areaMatches ("Management", ["Management", "Business"]) (pyUpper "Business Economics") = true ∧
    LSEScraper.determine_area "Business Economics" = "Economics" := by
  refine ⟨by decide, ?_⟩
  exact (c9_subject_area_first_match "Business Economics").1 0 (by decide) (by decide)
    (fun j hj => absurd hj (Nat.not_lt_zero j))

theorem dedupCourses_not_seen (cs : List Course) :
    ∀ (seen : List String) (c : Course), c ∈ dedupCourses cs seen →
      seen.contains c.degree_course_name = false := by
  induction cs with
  | nil =>
    intro seen c hc
    exact absurd hc (List.not_mem_nil c)
  | cons d rest ih =>
    intro seen c hc
    unfold dedupCourses at hc
    split at hc
    · next hg =>
      rcases List.mem_cons.mp hc with h1 | h2
      · subst h1
        simp only [Bool.and_eq_true] at hg
        simpa using hg.2
      · have h3 := ih _ _ h2
        rw [show (d.degree_course_name :: seen).contains c.degree_course_name
            = (c.degree_course_name == d.degree_course_name
               || seen.contains c.degree_course_name) from rfl] at h3
        exact (Bool.or_eq_false_iff.mp h3).2
    · exact ih _ _ hc

theorem dedupCourses_names_distinct (cs : List Course) :
    ∀ seen, namesDistinct (dedupCourses cs seen) := by
  induction cs with
  | nil =>
    intro seen
    exact List.Pairwise.nil
  | cons d rest ih =>
    intro seen
    unfold dedupCourses
    split
    · refine List.Pairwise.cons ?_ (ih _)
      intro b hb he
      have h3 := dedupCourses_not_seen rest (d.degree_course_name :: seen) b hb
      rw [show (d.degree_course_name :: seen).contains b.degree_course_name
          = (b.degree_course_name == d.degree_course_name
             || seen.contains b.degree_course_name) from rfl] at h3
      have h4 := (Bool.or_eq_false_iff.mp h3).1
      rw [beq_eq_false_iff_ne] at h4
      exact h4 he.symm
    · exact ih seen

/-- C2 (amended): the enhanced LSE get_courses deduplicates by exact
course name — its output never carries two entries with the same name —
and is capped at 30 records.  BolognaScraper.get_courses performs no
deduplication (see the counterexample); its output is merely bounded by
20 records, ten per cycle page. -/
theorem c2_dedup_and_cap (f : LSEFetch) (p1 p2 : Option (List BItem)) (micro : Nat) :
    (LSEScraper.get_courses f micro).length ≤ 30 ∧
    namesDistinct (LSEScraper.get_courses f micro) ∧
    (BolognaScraper.get_courses p1 p2 micro).length ≤ 20 := by
  refine ⟨?_, ?_, ?_⟩
  · unfold LSEScraper.get_courses
    rw [List.length_take]
    exact min_le_left _ _
  · unfold LSEScraper.get_courses namesDistinct
    exact List.Pairwise.sublist (List.take_sublist _ _)
      (dedupCourses_names_distinct _ [])
  · have hb : ∀ (o : Option (List BItem)) (tag : String),
        (match o with
         | none => []
         | some items =>
             (items.take 10).filterMap (BolognaScraper.parse_course_item tag micro)).length
          ≤ 10 := by
      intro o tag
      cases o with
      | none => simp
      | some items =>
        calc ((items.take 10).filterMap (BolognaScraper.parse_course_item tag micro)).length
            ≤ (items.take 10).length := List.length_filterMap_le _ _
          _ ≤ 10 := by rw [List.length_take]; exact min_le_left _ _
    unfold BolognaScraper.get_courses
    rw [List.length_append]
    exact Nat.add_le_add (hb p1 "first_cycle") (hb p2 "second_cycle")

/-- C2 counterexample: a Bologna first-cycle page listing the same
programme anchor twice makes get_courses return two entries with the
identical name Economics and Law — BolognaScraper.get_courses does not
deduplicate, contradicting the claim for every scraper variant. -/
theorem c2_counterexample :
    courseNames (BolognaScraper.get_courses
        (some [BItem.anchor "Economics and Law" "/a", BItem.anchor "Economics and Law" "/a"])
        none 0)
      = ["Economics and Law", "Economics and Law"] := by
  decide

theorem foldl_upsert_split (cs : List Course) :
    ∀ (s : List Course),
      cs.foldl (fun acc c => upsertCourse c acc) s
        = s.filter (fun r => !(courseKeys cs).contains r.degree_course_code)
          ++ cs.foldl (fun acc c => upsertCourse c acc) [] := by
  induction cs with
  | nil =>
    intro s
    simp [courseKeys]
  | cons c tl ih =>
    intro s
    have hstep : ∀ (l : List Course),
        (upsertCourse c l).filter (fun r => !(courseKeys tl).contains r.degree_course_code)
          = l.filter (fun r => !(courseKeys (c :: tl)).contains r.degree_course_code)
            ++ [c].filter (fun r => !(courseKeys tl).contains r.degree_course_code) := by
      intro l
      unfold upsertCourse
      rw [List.filter_append, List.filter_filter]
      congr 1
      apply List.filter_congr
      intro r _
      show (!(courseKeys tl).contains r.degree_course_code
            && (r.degree_course_code != c.degree_course_code))
          = !(courseKeys (c :: tl)).contains r.degree_course_code
      rw [show (courseKeys (c :: tl)).contains r.degree_course_code
          = (r.degree_course_code == c.degree_course_code
             || (courseKeys tl).contains r.degree_course_code) from rfl]
      rw [Bool.not_or]
      rw [Bool.and_comm (!(courseKeys tl).contains r.degree_course_code)
        (r.degree_course_code != c.degree_course_code)]
      rfl
    rw [List.foldl_cons, List.foldl_cons, ih (upsertCourse c s), ih (upsertCourse c []),
      hstep s, List.append_assoc]
    rfl

theorem mem_foldl_upsert (cs : List Course) :
    ∀ (s : List Course) (r : Course),
      r ∈ cs.foldl (fun acc c => upsertCourse c acc) s →
      r ∈ s ∨ r.degree_course_code ∈ courseKeys cs := by
  induction cs with
  | nil =>
    intro s r h
    exact Or.inl h
  | cons c tl ih =>
    intro s r h
    rw [List.foldl_cons] at h
    rcases ih (upsertCourse c s) r h with hs | hk
    · unfold upsertCourse at hs
      rcases List.mem_append.mp hs with h1 | h2
      · exact Or.inl (List.mem_of_mem_filter h1)
      · have h3 : r = c := by simpa using h2
        subst h3
        exact Or.inr (List.mem_cons_self _ _)
    · exact Or.inr (List.mem_cons_of_mem _ hk)

theorem courseKeys_nodup_upsert (c : Course) (s : List Course)
    (h : (courseKeys s).Nodup) : (courseKeys (upsertCourse c s)).Nodup := by
  have heq : courseKeys (upsertCourse c s)
      = courseKeys (s.filter (fun d => d.degree_course_code != c.degree_course_code))
        ++ [c.degree_course_code] := by
    simp [courseKeys, upsertCourse]
  rw [heq]
  refine List.Nodup.append ?_ (List.nodup_singleton _) ?_
  · exact List.Nodup.sublist (List.Sublist.map _ (List.filter_sublist s)) h
  · rw [List.disjoint_singleton]
    intro hmem
    simp only [courseKeys, List.mem_map, List.mem_filter] at hmem
    obtain ⟨d, ⟨-, hne⟩, hkey⟩ := hmem
    exact absurd hkey (by simpa using hne)

theorem courseKeys_nodup_foldl (cs : List Course) :
    ∀ (s : List Course), (courseKeys s).Nodup →
      (courseKeys (cs.foldl (fun acc c => upsertCourse c acc) s)).Nodup := by
  induction cs with
  | nil =>
    intro s h
    exact h
  | cons c tl ih =>
    intro s h
    rw [List.foldl_cons]
    exact ih _ (courseKeys_nodup_upsert c s h)

theorem key_mem_upsert (c : Course) (s : List Course) (k : String) (h : k ∈ courseKeys s) :
    k ∈ courseKeys (upsertCourse c s) := by
  by_cases hk : k = c.degree_course_code
  · subst hk
    simp [courseKeys, upsertCourse]
  · simp only [courseKeys, List.mem_map] at h
    obtain ⟨d, hd, hkey⟩ := h
    simp only [courseKeys, upsertCourse, List.map_append, List.mem_append, List.mem_map]
    exact Or.inl ⟨d, List.mem_filter.mpr ⟨hd, by rw [hkey]; exact bne_iff_ne.mpr hk⟩, hkey⟩

theorem key_mem_foldl_mono (cs : List Course) :
    ∀ (s : List Course) (k : String), k ∈ courseKeys s →
      k ∈ courseKeys (cs.foldl (fun acc c => upsertCourse c acc) s) := by
  induction cs with
  | nil =>
    intro s k h
    exact h
  | cons c tl ih =>
    intro s k h
    rw [List.foldl_cons]
    exact ih _ _ (key_mem_upsert c s k h)

theorem key_mem_foldl (cs : List Course) :
    ∀ (s : List Course) (c : Course), c ∈ cs →
      c.degree_course_code ∈ courseKeys (cs.foldl (fun acc c => upsertCourse c acc) s) := by
  induction cs with
  | nil =>
    intro s c hc
    exact absurd hc (List.not_mem_nil c)
  | cons d tl ih =>
    intro s c hc
    rw [List.foldl_cons]
    rcases List.mem_cons.mp hc with h1 | h2
    · subst h1
      exact key_mem_foldl_mono tl _ _ (by simp [courseKeys, upsertCourse])
    · exact ih _ c h2

theorem foldl_upsert_base_filter (cs : List Course) :
    (cs.foldl (fun acc c => upsertCourse c acc) []).filter
      (fun r => !(courseKeys cs).contains r.degree_course_code) = [] := by
  rw [List.filter_eq_nil_iff]
  intro r hr
  rcases mem_foldl_upsert cs [] r hr with h | h
  · exact absurd h (List.not_mem_nil r)
  · show ¬(!(courseKeys cs).contains r.degree_course_code) = true
    have hcont : (courseKeys cs).contains r.degree_course_code = true :=
      List.elem_eq_true_of_mem h
    rw [hcont]
    decide

theorem foldl_upsert_idem (cs l : List Course) :
    cs.foldl (fun acc c => upsertCourse c acc) (cs.foldl (fun acc c => upsertCourse c acc) l)
      = cs.foldl (fun acc c => upsertCourse c acc) l := by
  rw [foldl_upsert_split cs (cs.foldl (fun acc c => upsertCourse c acc) l),
    foldl_upsert_split cs l, List.filter_append, foldl_upsert_base_filter, List.append_nil,
    List.filter_filter]
  congr 1
  apply List.filter_congr
  intro x _
  exact Bool.and_self _

theorem length_filter_key_eq_one (l : List Course) (k : String)
    (hnd : (courseKeys l).Nodup) (hk : k ∈ courseKeys l) :
    (l.filter (fun d => d.degree_course_code == k)).length = 1 := by
  induction l with
  | nil =>
    simp [courseKeys] at hk
  | cons d tl ih =>
    rw [show courseKeys (d :: tl) = d.degree_course_code :: courseKeys tl from rfl] at hnd hk
    rw [List.nodup_cons] at hnd
    rcases List.mem_cons.mp hk with h1 | h2
    · have hd : (d.degree_course_code == k) = true := beq_iff_eq.mpr h1.symm
      rw [List.filter_cons, if_pos hd]
      have htl : tl.filter (fun e => e.degree_course_code == k) = [] := by
        rw [List.filter_eq_nil_iff]
        intro a ha hpa
        rw [beq_iff_eq] at hpa
        exact hnd.1 (by
          rw [← h1, ← hpa]
          exact List.mem_map_of_mem _ ha)
      rw [htl]
      rfl
    · have hd : (d.degree_course_code == k) = false := by
        rw [beq_eq_false_iff_ne]
        intro he
        exact hnd.1 (he ▸ h2)
      rw [List.filter_cons, if_neg (by simp [hd])]
      exact ih hnd.2 h2

/-- C5: saving the same institution record twice (save_university) and
the same programme list twice (save_courses) leaves the store exactly as
after saving once; in that state every saved identifier owns exactly one
row of its table.  The last_updated timestamp column, filled by a SQL
DEFAULT rather than by the saved data, is outside the model. -/
theorem c5_idempotent_persistence (u : University) (su : Store) (cs : List Course) (sc : Store)
    (c : Course) (hc : c ∈ cs) :
    DatabaseManager.save_university u (DatabaseManager.save_university u su)
      = DatabaseManager.save_university u su ∧
    (rowsWithUniId u.university_id (DatabaseManager.save_university u su).universities).length
      = 1 ∧
    DatabaseManager.save_courses cs (DatabaseManager.save_courses cs sc)
      = DatabaseManager.save_courses cs sc ∧
    (rowsWithCode c.degree_course_code (DatabaseManager.save_courses cs sc).courses).length
      = 1 := by
  refine ⟨?_, ?_, ?_, ?_⟩
  · apply Store.ext
    · simp [DatabaseManager.save_university, List.filter_append, List.filter_filter,
        Bool.and_self, bne_self_eq_false]
    · rfl
    · rfl
    · rfl
  · show (List.filter (fun v => v.university_id == u.university_id)
        (su.universities.filter (fun v => v.university_id != u.university_id) ++ [u])).length = 1
    rw [List.filter_append, List.length_append]
    have h1 : (su.universities.filter (fun v => v.university_id != u.university_id)).filter
        (fun v => v.university_id == u.university_id) = [] := by
      rw [List.filter_filter, List.filter_eq_nil_iff]
      intro a ha
      cases hb : a.university_id == u.university_id <;> simp [hb, bne]
    rw [h1]
    simp
  · exact Store.ext rfl (foldl_upsert_idem cs sc.courses) rfl rfl
  · show (List.filter (fun d => d.degree_course_code == c.degree_course_code)
        (cs.foldl (fun acc c => upsertCourse c acc) sc.courses)).length = 1
    rw [foldl_upsert_split cs sc.courses, List.filter_append, List.length_append]
    have h1 : ((sc.courses.filter
          (fun r => !(courseKeys cs).contains r.degree_course_code)).filter
        (fun d => d.degree_course_code == c.degree_course_code)) = [] := by
      rw [List.filter_filter, List.filter_eq_nil_iff]
      intro a ha hcontra
      simp only [Bool.and_eq_true] at hcontra
      obtain ⟨h2, h3⟩ := hcontra
      rw [beq_iff_eq] at h2
      have hk : c.degree_course_code ∈ courseKeys cs := List.mem_map_of_mem _ hc
      have hcont : (courseKeys cs).contains c.degree_course_code = true :=
        List.elem_eq_true_of_mem hk
      rw [h2, hcont] at h3
      exact absurd h3 (by decide)
    rw [h1]
    simp only [List.length_nil, Nat.zero_add]
    exact length_filter_key_eq_one _ c.degree_course_code
      (courseKeys_nodup_foldl cs [] (by simp [courseKeys])) (key_mem_foldl cs [] c hc)

/-- C5 witness: a concrete institution and a one-course list, saved
twice into the empty store. -/
theorem c5_idempotent_persistence_witness :
    DatabaseManager.save_university LSEScraper.get_university_info
        (DatabaseManager.save_university LSEScraper.get_university_info emptyStore)
      = DatabaseManager.save_university LSEScraper.get_university_info emptyStore ∧
    DatabaseManager.save_courses [c1ex] (DatabaseManager.save_courses [c1ex] emptyStore)
      = DatabaseManager.save_courses [c1ex] emptyStore ∧
    (rowsWithCode c1ex.degree_course_code
        (DatabaseManager.save_courses [c1ex] emptyStore).courses).length = 1 := by
  have h := c5_idempotent_persistence LSEScraper.get_university_info emptyStore [c1ex]
    emptyStore c1ex (List.mem_cons_self c1ex [])
  exact ⟨h.1, h.2.2.1, h.2.2.2⟩

/-- C6: after saving two institutions (distinct identifiers and display
names) and three programmes (distinct codes) all referencing the first,
get_statistics reports 2 universities, 3 courses, and a per-institution
grouping mapping the first institution's name to 3 and the second's to
0 — the LEFT JOIN keeps the programme-less institution with a zero
count. -/
theorem c6_statistics_grouping (u1 u2 : University) (c1 c2 c3 : Course) (st : Store)
    (hu : u1.university_id ≠ u2.university_id)
    (hn : u1.university_name ≠ u2.university_name)
    (h12 : c1.degree_course_code ≠ c2.degree_course_code)
    (h13 : c1.degree_course_code ≠ c3.degree_course_code)
    (h23 : c2.degree_course_code ≠ c3.degree_course_code)
    (hc1 : c1.university_id = u1.university_id)
    (hc2 : c2.university_id = u1.university_id)
    (hc3 : c3.university_id = u1.university_id)
    (hst : st = DatabaseManager.save_courses [c1, c2, c3]
        (DatabaseManager.save_university u2 (DatabaseManager.save_university u1 emptyStore))) :
    (DatabaseManager.get_statistics st).universities = 2 ∧
    (DatabaseManager.get_statistics st).courses = 3 ∧
    dictGet (DatabaseManager.get_statistics st).by_university u1.university_name = some 3 ∧
    dictGet (DatabaseManager.get_statistics st).by_university u2.university_name = some 0 := by
  have hu' : (u1.university_id != u2.university_id) = true := bne_iff_ne.mpr hu
  have h12' : (c1.degree_course_code != c2.degree_course_code) = true := bne_iff_ne.mpr h12
  have h13' : (c1.degree_course_code != c3.degree_course_code) = true := bne_iff_ne.mpr h13
  have h23' : (c2.degree_course_code != c3.degree_course_code) = true := bne_iff_ne.mpr h23
  have hstore : st = Store.mk [u1, u2] [c1, c2, c3] [] [] := by
    rw [hst]
    apply Store.ext
    · show (([] : List University).filter (fun v => v.university_id != u1.university_id)
          ++ [u1]).filter (fun v => v.university_id != u2.university_id) ++ [u2] = [u1, u2]
      simp [List.filter_cons, hu']
    · show List.foldl (fun acc c => upsertCourse c acc) ([] : List Course) [c1, c2, c3]
          = [c1, c2, c3]
      simp [upsertCourse, List.filter_cons, h12', h13', h23']
    · rfl
    · rfl
  subst hstore
  have q1 : c1.university_id ≠ u2.university_id := by rw [hc1]; exact hu
  have q2 : c2.university_id ≠ u2.university_id := by rw [hc2]; exact hu
  have q3 : c3.university_id ≠ u2.university_id := by rw [hc3]; exact hu
  have hn' : u2.university_name ≠ u1.university_name := Ne.symm hn
  refine ⟨rfl, rfl, ?_, ?_⟩
  · simp [DatabaseManager.get_statistics, dictGet, List.filter_cons, hc1, hc2, hc3, hn']
  · simp [DatabaseManager.get_statistics, dictGet, List.filter_cons, q1, q2, q3, hn]

/-- C6 witness: the concrete two-institution, three-programme scenario. -/
theorem c6_statistics_grouping_witness :
    (DatabaseManager.get_statistics stExample).universities = 2 ∧
    (DatabaseManager.get_statistics stExample).courses = 3 ∧
    dictGet (DatabaseManager.get_statistics stExample).by_university "Uni One" = some 3 ∧
    dictGet (DatabaseManager.get_statistics stExample).by_university "Uni Two" = some 0 := by
  have h := c6_statistics_grouping u1ex u2ex c1ex c2ex c3ex stExample (by decide) (by decide)
    (by decide) (by decide) (by decide) (by decide) (by decide) (by decide) rfl
  exact h

end Scraper


